import Mathlib

/-!
Verification of the data-cleaning and presentation pipeline of the
"poor-people-tax" dashboard (src/app/app.py).

The embedding is shallow: each pandas transform becomes a Lean function over
typed row lists; machine floats are modelled as rationals; the CSV byte layer
is modelled as strings over explicit character lists; the Streamlit script is
modelled as a function from its input tables to the ordered list of page
sections it emits, with st.stop aborting the remainder of the script.
-/

/-- An in-memory table at the boundary of load and export: a header of column
names and rows of rendered cell strings (the layer at which to_csv and
read_csv operate). -/
structure Table where
  cols : List String
  rows : List (List String)
deriving DecidableEq

/-- pd.DataFrame(): the empty frame returned on a failed load. -/
def emptyTable : Table := ⟨[], []⟩

/-- Whether a CSV field must be quoted (csv QUOTE_MINIMAL, the to_csv
default): it contains a comma, a double quote, a newline or a carriage
return. -/
def csvNeedsQuote (cs : List Char) : Bool :=
  cs.any (fun c => c = ',' || c = '"' || c = '\n' || c = '\r')

/-- Double every double-quote character, as CSV quoting requires inside a
quoted field. -/
def doubleQ : List Char → List Char
  | [] => []
  | c :: cs => if c = '"' then '"' :: '"' :: doubleQ cs else c :: doubleQ cs

/-- Collapse doubled double-quotes; inverse of doubleQ on its image. -/
def undouble : List Char → List Char
  | [] => []
  | [c] => [c]
  | c :: d :: cs =>
    if c = '"' && d = '"' then '"' :: undouble cs else c :: undouble (d :: cs)

/-- Serialize one CSV field with minimal quoting. -/
def csvEscape (cs : List Char) : List Char :=
  if csvNeedsQuote cs then '"' :: (doubleQ cs ++ ['"']) else cs

/-- Join character chunks with a single separator character between
consecutive chunks. -/
def joinSep (d : Char) : List (List Char) → List Char
  | [] => []
  | [p] => p
  | p :: q :: ps => p ++ d :: joinSep d (q :: ps)

/-- Serialize one CSV record as comma-separated escaped fields. -/
def csvLine (cells : List String) : List Char :=
  joinSep ',' (cells.map (fun s => csvEscape s.data))

/-- df_csv_bytes (src/app/app.py lines 12-13): df.to_csv(index=False)
followed by UTF-8 encoding. to_csv emits the header record then each data
record, every record terminated by a newline; the byte sequence is modelled
by the string it decodes to. -/
def df_csv_bytes (t : Table) : String :=
  ⟨((t.cols :: t.rows).map (fun r => csvLine r ++ ['\n'])).flatten⟩

/-- Split a character stream at top-level delimiter characters: a delimiter
occurring inside a double-quoted region (an odd number of quotes seen so
far) does not split. -/
def splitTopAux (P : Char → Bool) : List Char → Bool → List Char → List (List Char)
  | [], _, acc => [acc]
  | c :: cs, inQ, acc =>
    if c = '"' then splitTopAux P cs (!inQ) (acc ++ ['"'])
    else if !inQ && P c then acc :: splitTopAux P cs false []
    else splitTopAux P cs inQ (acc ++ [c])

/-- Quote-aware split starting outside any quoted region. -/
def splitTop (P : Char → Bool) (cs : List Char) : List (List Char) :=
  splitTopAux P cs false []

/-- Specification scan used to reason about splitTopAux: starting in quote
state inQ, return the final quote state provided no top-level delimiter is
met, and none otherwise. -/
def scanSafe (P : Char → Bool) : Bool → List Char → Option Bool
  | inQ, [] => some inQ
  | inQ, c :: cs =>
    if c = '"' then scanSafe P (!inQ) cs
    else if !inQ && P c then none
    else scanSafe P inQ cs

/-- The characters that force CSV quoting. -/
def csvSpecial (c : Char) : Bool :=
  c = ',' || c = '"' || c = '\n' || c = '\r'

/-- Undo minimal quoting on one parsed field: a field opening with a double
quote is stripped of its surrounding quotes and its doubled quotes are
collapsed; any other field is taken verbatim. -/
def unescapeField (cs : List Char) : List Char :=
  match cs with
  | [] => []
  | c :: rest => if c = '"' then undouble rest.dropLast else c :: rest

/-- CSV parse of a byte stream as read_csv tokenizes it: records at
top-level newlines, blank records skipped (skip_blank_lines default), fields
at top-level commas, each field unquoted. -/
def csvParse (s : String) : List (List String) :=
  ((splitTop (fun c => c = '\n') s.data).filter (fun r => !r.isEmpty)).map
    (fun record => (splitTop (fun c => c = ',') record).map (fun f => ⟨unescapeField f⟩))

/-- Re-parsing exported bytes with read_csv: the first record is the header
row, the remaining records are the data rows. -/
def read_csv_model (s : String) : Table :=
  match csvParse s with
  | [] => emptyTable
  | h :: rs => ⟨h, rs⟩

/-- Python str.lower modelled characterwise. -/
def pyLower (s : String) : String :=
  ⟨s.data.map Char.toLower⟩

/-- Python str.strip: drop leading and trailing whitespace. -/
def pyStrip (s : String) : String :=
  ⟨((s.data.dropWhile Char.isWhitespace).reverse.dropWhile Char.isWhitespace).reverse⟩

/-- A cell value as pandas types it after read_csv: a number, a string, or
missing (NaN). -/
inductive Val where
  | num (q : ℚ)
  | str (s : String)
  | na
deriving DecidableEq

/-- Numeric value of a digit string (most significant first). -/
def digitsVal (cs : List Char) : ℕ :=
  cs.foldl (fun n c => 10 * n + (c.toNat - 48)) 0

/-- Parse an unsigned decimal numeral: digits with an optional fractional
part, at least one digit overall. -/
def parseUnsigned (cs : List Char) : Option ℚ :=
  match List.splitOn '.' cs with
  | [ip] => if !ip.isEmpty && ip.all Char.isDigit then some (digitsVal ip) else none
  | [ip, fp] =>
    if (ip.all Char.isDigit && fp.all Char.isDigit) && !(ip.isEmpty && fp.isEmpty) then
      some ((digitsVal ip : ℚ) + (digitsVal fp : ℚ) / (10 : ℚ) ^ fp.length)
    else none
  | _ => none

/-- Model of float(str) on plain decimal numerals: surrounding whitespace
stripped, optional sign, digits with optional fractional part. -/
def parseRat (s : String) : Option ℚ :=
  match (pyStrip s).data with
  | '-' :: cs => (parseUnsigned cs).map (fun q => -q)
  | '+' :: cs => parseUnsigned cs
  | cs => parseUnsigned cs

/-- pd.to_numeric(errors="coerce") on one cell: numbers pass through,
numeric strings parse, anything else becomes missing. -/
def toNumeric : Val → Option ℚ
  | .num q => some q
  | .str s => parseRat s
  | .na => none

/-- A raw spend-by-age row carrying the expected schema (columns age_group,
avg_annual_spend_usd, year, source) after load and column stripping; the
rename to AgeGroup/AvgAnnualSpend is schema-level and is reflected in the
output row type. -/
structure BlsRow where
  age_group : String
  avg_annual_spend_usd : Val
  year : Val
  source : String
deriving DecidableEq

/-- The fixed 7-bucket category order of prep_bls (line 158). -/
def age_order : List String :=
  ["Under 25", "25-34", "35-44", "45-54", "55-64", "65-74", "75+"]

/-- A shaped spend row: AgeGroup is categorical over age_order, so labels
outside the category set become missing; AvgMonthlySpend is derived; the
AvgAnnualSpend column itself is left as loaded. -/
structure BlsOut where
  ageGroup : Option String
  avgAnnualSpend : Val
  avgMonthlySpend : Option ℚ
  year : Val
  source : String
deriving DecidableEq

/-- The row filter of line 153: keep rows whose label is not case-
insensitively "all ages". -/
def blsKeepRow (r : BlsRow) : Bool :=
  !(pyLower r.age_group == "all ages")

/-- Per-row shaping of prep_bls: derive the monthly column from the coerced
annual column divided by 12, and convert the label to the categorical. -/
def blsShapeRow (r : BlsRow) : BlsOut :=
  { ageGroup := if r.age_group ∈ age_order then some r.age_group else none
    avgAnnualSpend := r.avg_annual_spend_usd
    avgMonthlySpend := (toNumeric r.avg_annual_spend_usd).map (fun q => q / 12)
    year := r.year
    source := r.source }

/-- Sort key of the categorical: position in age_order, with the sentinel
age_order.length for a missing label, so NaN sorts last (na_position
"last"). -/
def blsSortKey (r : BlsOut) : ℕ :=
  (r.ageGroup.bind (fun s => age_order.findIdx? (fun a => a == s))).getD age_order.length

/-- The sort relation of sort_values("AgeGroup"). -/
def blsLE (a b : BlsOut) : Prop := blsSortKey a ≤ blsSortKey b

instance : DecidableRel blsLE := fun a b =>
  inferInstanceAs (Decidable (blsSortKey a ≤ blsSortKey b))

instance : IsTotal BlsOut blsLE := ⟨fun a b => Nat.le_total _ _⟩

instance : IsTrans BlsOut blsLE := ⟨fun _ _ _ => Nat.le_trans⟩

/-- prep_bls (lines 144-162): empty input passes through; otherwise drop the
case-insensitive "all ages" row, derive AvgMonthlySpend =
to_numeric(AvgAnnualSpend)/12, convert AgeGroup to the ordered categorical
and sort by it with missing categories placed last. -/
def prep_bls (rows : List BlsRow) : List BlsOut :=
  if rows.isEmpty then []
  else List.insertionSort blsLE ((rows.filter blsKeepRow).map blsShapeRow)

/-- A raw year/percentage/source row with the expected schema of the two
percent-series inputs; the renames to Year/Under30LotteryPct/Source and
Year/Under30CryptoPct/Source are schema-level. -/
structure PctRow where
  year : Val
  pct : Val
  source : String
deriving DecidableEq

/-- A shaped percent-series row after coercion and dropna. -/
structure PctOut where
  year : ℚ
  pct : ℚ
  source : String
deriving DecidableEq

/-- Coerce Year and the metric; a row fails (is dropped by dropna) when
either coercion yields missing. -/
def pctCoerceRow (r : PctRow) : Option PctOut :=
  match toNumeric r.year, toNumeric r.pct with
  | some y, some p => some ⟨y, p, r.source⟩
  | _, _ => none

/-- The sort relation of sort_values("Year"). -/
def pctLE (a b : PctOut) : Prop := a.year ≤ b.year

instance : DecidableRel pctLE := fun a b =>
  inferInstanceAs (Decidable (a.year ≤ b.year))

instance : IsTotal PctOut pctLE := ⟨fun a b => le_total a.year b.year⟩

instance : IsTrans PctOut pctLE := ⟨fun _ _ _ => le_trans⟩

/-- prep_lottery (lines 208-219): rename, coerce Year and
Under30LotteryPct, drop rows with a missing coerced value, sort ascending by
Year. -/
def prep_lottery (rows : List PctRow) : List PctOut :=
  if rows.isEmpty then []
  else List.insertionSort pctLE (rows.filterMap pctCoerceRow)

/-- prep_crypto (lines 286-297): the identical shaping applied to the
crypto-ownership table (metric Under30CryptoPct). -/
def prep_crypto (rows : List PctRow) : List PctOut :=
  if rows.isEmpty then []
  else List.insertionSort pctLE (rows.filterMap pctCoerceRow)

/-- A concentration row (columns year, top_0_01_pct_ownership, source) as
typed by read_csv: integral year, numeric percentage. -/
structure ConcRow where
  year : ℤ
  top_0_01_pct_ownership : ℚ
  source : String
deriving DecidableEq

/-- conc.loc[conc.year == year, c].iloc[0] (lines 357-359): the first row
matching the selected year; none models the IndexError raised when no row
matches. -/
def conc_lookup (conc : List ConcRow) (y : ℤ) : Option (ℚ × String) :=
  match conc.filter (fun r => r.year == y) with
  | [] => none
  | r :: _ => some (r.top_0_01_pct_ownership, r.source)

/-- The donut dataframe built on a successful lookup (lines 365-368): the
top fraction and its complement to 100. -/
def donut_df (pct : ℚ) : List (String × ℚ) :=
  [("Top 0.01% of holders", pct), ("All other holders", 100 - pct)]

/-- The user-visible sections of the page script, in script order. -/
inductive Sect where
  | sidebar
  | header
  | blsChart
  | blsWarning
  | gallupChart
  | gallupWarning
  | memo
  | cryptoChart
  | cryptoWarning
  | concChart
  | concWarning
  | concError
  | synthesis
  | closing
  | footer
deriving DecidableEq

/-- The input state of one page run: the four loaded tables and the year
the user requests on the slider. -/
structure PageInput where
  bls : List BlsRow
  lottery : List PctRow
  crypto : List PctRow
  conc : List ConcRow
  reqYear : ℤ
deriving DecidableEq

/-- int(conc.year.min()) over a non-empty table (line 354). -/
def concYearMin (conc : List ConcRow) : ℤ :=
  ((conc.map (fun r => r.year)).min?).getD 0

/-- int(conc.year.max()) over a non-empty table (line 354). -/
def concYearMax (conc : List ConcRow) : ℤ :=
  ((conc.map (fun r => r.year)).max?).getD 0

/-- st.slider bounds the selected value to the interval [lo, hi]. -/
def sliderValue (lo hi v : ℤ) : ℤ := max lo (min v hi)

/-- The sections the script emits before reaching the concentration block:
sidebar, header, then each data section's chart or, when its shaped table is
empty, its warning. -/
def preSections (inp : PageInput) : List Sect :=
  [Sect.sidebar, Sect.header]
    ++ (if (prep_bls inp.bls).isEmpty then [Sect.blsWarning] else [Sect.blsChart])
    ++ (if (prep_lottery inp.lottery).isEmpty then [Sect.gallupWarning] else [Sect.gallupChart])
    ++ [Sect.memo]
    ++ (if (prep_crypto inp.crypto).isEmpty then [Sect.cryptoWarning] else [Sect.cryptoChart])

/-- The whole script top to bottom (lines 104-488). The concentration block
(lines 351-405) renders its donut on a successful lookup, its empty-state
warning on an empty table, and on a failed lookup emits st.error followed by
st.stop, which aborts the script: nothing after the error is emitted. -/
def renderPage (inp : PageInput) : List Sect :=
  let tailS := [Sect.synthesis, Sect.closing, Sect.footer]
  if inp.conc.isEmpty then preSections inp ++ [Sect.concWarning] ++ tailS
  else
    match conc_lookup inp.conc
        (sliderValue (concYearMin inp.conc) (concYearMax inp.conc) inp.reqYear) with
    | some _ => preSections inp ++ [Sect.concChart] ++ tailS
    | none => preSections inp ++ [Sect.concError]

/-- load_csv_safe (lines 84-92), over the outcome of the read attempt: on
success every column name is stripped; on any exception the loader emits
st.error and returns an empty frame. The second component is the emitted
diagnostic, if any. -/
def load_csv_safe (readResult : Except String Table) : Table × Option String :=
  match readResult with
  | .ok df => ({ cols := df.cols.map pyStrip, rows := df.rows }, none)
  | .error e => (emptyTable, some ("Failed to load → " ++ e))

/-- load_concentration (lines 343-349): reads crypto_concentration.csv with
no column-name normalization; on any exception it emits st.warning and
returns an empty frame. -/
def load_concentration (readResult : Except String Table) : Table × Option String :=
  match readResult with
  | .ok df => (df, none)
  | .error e => (emptyTable, some ("Could not load crypto_concentration.csv — " ++ e))

/-! ## Helper lemmas -/

theorem stringMk_data (s : String) : String.mk s.data = s := rfl

theorem prep_bls_perm (rows : List BlsRow) :
    (prep_bls rows).Perm ((rows.filter blsKeepRow).map blsShapeRow) := by
  unfold prep_bls
  cases rows with
  | nil => simp
  | cons a l => simpa using List.perm_insertionSort blsLE (((a :: l).filter blsKeepRow).map blsShapeRow)

theorem prep_bls_sorted (rows : List BlsRow) : List.Sorted blsLE (prep_bls rows) := by
  unfold prep_bls
  cases rows with
  | nil => simp
  | cons a l => simpa using List.sorted_insertionSort blsLE (((a :: l).filter blsKeepRow).map blsShapeRow)

theorem prep_lottery_perm (rows : List PctRow) :
    (prep_lottery rows).Perm (rows.filterMap pctCoerceRow) := by
  unfold prep_lottery
  cases rows with
  | nil => simp
  | cons a l => simpa using List.perm_insertionSort pctLE ((a :: l).filterMap pctCoerceRow)

theorem prep_crypto_perm (rows : List PctRow) :
    (prep_crypto rows).Perm (rows.filterMap pctCoerceRow) := by
  unfold prep_crypto
  cases rows with
  | nil => simp
  | cons a l => simpa using List.perm_insertionSort pctLE ((a :: l).filterMap pctCoerceRow)

theorem prep_lottery_sorted (rows : List PctRow) : List.Sorted pctLE (prep_lottery rows) := by
  unfold prep_lottery
  cases rows with
  | nil => simp
  | cons a l => simpa using List.sorted_insertionSort pctLE ((a :: l).filterMap pctCoerceRow)

theorem prep_crypto_sorted (rows : List PctRow) : List.Sorted pctLE (prep_crypto rows) := by
  unfold prep_crypto
  cases rows with
  | nil => simp
  | cons a l => simpa using List.sorted_insertionSort pctLE ((a :: l).filterMap pctCoerceRow)

theorem blsKey_lt_of_mem (s : String) (hs : s ∈ age_order) :
    (age_order.findIdx? (fun a => a == s)).getD age_order.length < age_order.length := by
  fin_cases hs <;> decide

/-! ## Claims -/

/-- C2: every row retained in the Spend Shaper output whose annual-spend
value coerces to a number q has AvgMonthlySpend = q / 12. -/
theorem c2_monthly_is_annual_div12 (rows : List BlsRow) (r : BlsOut)
    (hr : r ∈ prep_bls rows) (q : ℚ) (hq : toNumeric r.avgAnnualSpend = some q) :
    r.avgMonthlySpend = some (q / 12) := by
  have hmem := (prep_bls_perm rows).mem_iff.mp hr
  obtain ⟨r0, -, rfl⟩ := List.mem_map.mp hmem
  simp only [blsShapeRow] at hq ⊢
  rw [hq]
  rfl

/-- Witness for C2 at a concrete one-row table: annual spend 90 yields
monthly spend 90/12. -/
theorem c2_witness :
    blsShapeRow ⟨"Under 25", Val.num 90, Val.num 2018, "BLS"⟩ ∈
        prep_bls [⟨"Under 25", Val.num 90, Val.num 2018, "BLS"⟩] ∧
      toNumeric (blsShapeRow ⟨"Under 25", Val.num 90, Val.num 2018, "BLS"⟩).avgAnnualSpend
        = some 90 ∧
      (blsShapeRow ⟨"Under 25", Val.num 90, Val.num 2018, "BLS"⟩).avgMonthlySpend
        = some (90 / 12) := by
  have hmem : blsShapeRow ⟨"Under 25", Val.num 90, Val.num 2018, "BLS"⟩ ∈
      prep_bls [⟨"Under 25", Val.num 90, Val.num 2018, "BLS"⟩] := by
    simp [prep_bls, show blsKeepRow ⟨"Under 25", Val.num 90, Val.num 2018, "BLS"⟩ = true by decide]
  exact ⟨hmem, rfl, c2_monthly_is_annual_div12 _ _ hmem 90 rfl⟩

/-- C5: the Spend Shaper output consists of exactly the shaped images of
the input rows whose label does not case-insensitively equal "all ages":
the line-153 filter removes every "all ages" row under any casing, and no
other step removes or adds rows. In particular no row originating from an
"all ages" input row is present in the output, and the output has exactly
as many rows as there are non-"all ages" input rows — a property a
filter-free pipeline would violate. -/
theorem c5_no_all_ages_row (rows : List BlsRow) :
    (prep_bls rows).Perm
        ((rows.filter (fun r => !(pyLower r.age_group == "all ages"))).map blsShapeRow) ∧
      (prep_bls rows).length
        = (rows.filter (fun r => !(pyLower r.age_group == "all ages"))).length := by
  have hperm : (prep_bls rows).Perm
      ((rows.filter (fun r => !(pyLower r.age_group == "all ages"))).map blsShapeRow) :=
    prep_bls_perm rows
  exact ⟨hperm, by rw [hperm.length_eq, List.length_map]⟩

/-- C10 fails as stated: an input row labelled "All ages" has a label
outside the fixed 7-bucket set, yet prep_bls drops it rather than
retaining it. -/
theorem c10_counterexample :
    "All ages" ∉ age_order ∧
      prep_bls [⟨"All ages", Val.num 500, Val.num 2018, "BLS"⟩] = [] := by
  constructor
  · decide
  · simp [prep_bls,
      show blsKeepRow ⟨"All ages", Val.num 500, Val.num 2018, "BLS"⟩ = false by decide]

/-- C10 amended: every input row whose label is outside the fixed 7-bucket
set and is not the case-insensitive "all ages" row is retained by prep_bls
(with its categorical label missing), and in the output no row with a
missing label precedes a row whose label is a fixed bucket. -/
theorem c10_unmapped_retained_amended (rows : List BlsRow) (r : BlsRow)
    (hr : r ∈ rows) (hout : r.age_group ∉ age_order)
    (hka : ¬ pyLower r.age_group = "all ages") :
    blsShapeRow r ∈ prep_bls rows ∧
      (prep_bls rows).Pairwise (fun a b => a.ageGroup = none → b.ageGroup = none) := by
  have hperm := prep_bls_perm rows
  constructor
  · apply hperm.mem_iff.mpr
    apply List.mem_map.mpr
    refine ⟨r, List.mem_filter.mpr ⟨hr, ?_⟩, rfl⟩
    simp [blsKeepRow, hka]
  · refine List.Pairwise.imp_of_mem ?_ (prep_bls_sorted rows)
    intro a b ha hb hle hna
    by_contra hbn
    have hbmem := hperm.mem_iff.mp hb
    obtain ⟨r0, -, rfl⟩ := List.mem_map.mp hbmem
    by_cases hin : r0.age_group ∈ age_order
    · have hkb : blsSortKey (blsShapeRow r0) < age_order.length := by
        simpa [blsSortKey, blsShapeRow, hin] using blsKey_lt_of_mem r0.age_group hin
      have hka7 : blsSortKey a = age_order.length := by
        simp [blsSortKey, hna]
      have hlekey : blsSortKey a ≤ blsSortKey (blsShapeRow r0) := hle
      omega
    · exact hbn (by simp [blsShapeRow, hin])

/-- Witness for C10 amended: an off-bucket label "mystery" is retained with
a missing categorical label and the output keeps missing labels last. -/
theorem c10_witness :
    blsShapeRow ⟨"mystery", Val.num 1, Val.num 2018, "BLS"⟩ ∈
        prep_bls [⟨"mystery", Val.num 1, Val.num 2018, "BLS"⟩,
          ⟨"Under 25", Val.num 90, Val.num 2018, "BLS"⟩] ∧
      (prep_bls [⟨"mystery", Val.num 1, Val.num 2018, "BLS"⟩,
          ⟨"Under 25", Val.num 90, Val.num 2018, "BLS"⟩]).Pairwise
        (fun a b => a.ageGroup = none → b.ageGroup = none) :=
  c10_unmapped_retained_amended _ _ (List.mem_cons_self _ _) (by decide) (by decide)

/-- C3: for both percent-series shapers, the output is non-decreasing in
Year, and it consists of exactly the successfully coerced input rows (so
every row whose Year or metric fails numeric coercion is absent). -/
theorem c3_percent_series_shape (rows : List PctRow) :
    List.Sorted pctLE (prep_lottery rows) ∧
      List.Sorted pctLE (prep_crypto rows) ∧
      (prep_lottery rows).Perm (rows.filterMap pctCoerceRow) ∧
      (prep_crypto rows).Perm (rows.filterMap pctCoerceRow) :=
  ⟨prep_lottery_sorted rows, prep_crypto_sorted rows,
    prep_lottery_perm rows, prep_crypto_perm rows⟩

/-- C4: whenever the concentration lookup succeeds with top percentage p,
the donut rows carry exactly p and 100 - p, and they sum to exactly 100. -/
theorem c4_donut_complement (conc : List ConcRow) (y : ℤ) (p : ℚ) (s : String)
    (h : conc_lookup conc y = some (p, s)) :
    (donut_df p).map Prod.snd = [p, 100 - p] ∧ p + (100 - p) = 100 :=
  ⟨rfl, by ring⟩

/-- Witness for C4 at a concrete one-row concentration table. -/
theorem c4_witness :
    conc_lookup [⟨2024, 31, "UC"⟩] 2024 = some (31, "UC") ∧
      ((donut_df 31).map Prod.snd = [(31 : ℚ), 100 - 31] ∧ (31 : ℚ) + (100 - 31) = 100) :=
  ⟨rfl, c4_donut_complement [⟨2024, 31, "UC"⟩] 2024 31 "UC" rfl⟩

/-- C1 fails as stated: with concentration rows for 2015 and 2024 only and
requested year 2016 (inside the slider range), the error is surfaced but
st.stop aborts the script, so the footer — a section outside the
concentration section — does not render. -/
theorem c1_counterexample :
    concYearMin [⟨2015, 27, "UC"⟩, ⟨2024, 31, "UC"⟩] ≤ 2016 ∧
      (2016 : ℤ) ≤ concYearMax [⟨2015, 27, "UC"⟩, ⟨2024, 31, "UC"⟩] ∧
      conc_lookup [⟨2015, 27, "UC"⟩, ⟨2024, 31, "UC"⟩] 2016 = none ∧
      Sect.concError ∈ renderPage ⟨[], [], [], [⟨2015, 27, "UC"⟩, ⟨2024, 31, "UC"⟩], 2016⟩ ∧
      Sect.footer ∉ renderPage ⟨[], [], [], [⟨2015, 27, "UC"⟩, ⟨2024, 31, "UC"⟩], 2016⟩ := by
  refine ⟨by decide, by decide, rfl, ?_, ?_⟩ <;>
    · show _
      simp [renderPage, preSections, prep_bls, prep_lottery, prep_crypto,
        conc_lookup, concYearMin, concYearMax, sliderValue]

/-- C1 amended: when the bounded slider year has no matching concentration
row, the script surfaces the error and stops: every section before the
concentration block still renders, and nothing after the error (synthesis
card, closing reflection, footer) renders. -/
theorem c1_halt_amended (inp : PageInput) (hne : inp.conc ≠ [])
    (hlo : concYearMin inp.conc ≤ inp.reqYear)
    (hhi : inp.reqYear ≤ concYearMax inp.conc)
    (hmiss : conc_lookup inp.conc inp.reqYear = none) :
    renderPage inp = preSections inp ++ [Sect.concError] := by
  have hemp : inp.conc.isEmpty = false := by
    cases h : inp.conc with
    | nil => exact absurd h hne
    | cons a l => rfl
  have hclamp : sliderValue (concYearMin inp.conc) (concYearMax inp.conc) inp.reqYear
      = inp.reqYear := by
    unfold sliderValue
    rw [min_eq_left hhi, max_eq_right hlo]
  simp only [renderPage, hemp, Bool.false_eq_true, if_false, hclamp, hmiss]

/-- Witness for C1 amended at the concrete counterexample input. -/
theorem c1_witness :
    renderPage ⟨[], [], [], [⟨2015, 27, "UC"⟩, ⟨2024, 31, "UC"⟩], 2016⟩
      = preSections ⟨[], [], [], [⟨2015, 27, "UC"⟩, ⟨2024, 31, "UC"⟩], 2016⟩
        ++ [Sect.concError] :=
  c1_halt_amended _ (by decide) (by decide) (by decide) rfl

/-- C7 fails as stated: the concentration loader performs no column-name
normalization, so a parseable file whose header carries whitespace keeps
it. -/
theorem c7_counterexample :
    (load_concentration (Except.ok ⟨[" year"], [["2015"]]⟩)).1.cols = [" year"] ∧
      (load_csv_safe (Except.ok ⟨[" year"], [["2015"]]⟩)).1.cols = ["year"] ∧
      pyStrip " year" ≠ " year" :=
  ⟨rfl, by decide, by decide⟩

/-- C7 amended: the three load_csv_safe loads strip every column name;
load_concentration returns the parsed frame unmodified (and both loaders
return the empty frame, with no columns, on a failed read). -/
theorem c7_strip_amended (df : Table) (e : String) :
    (load_csv_safe (Except.ok df)).1.cols = df.cols.map pyStrip ∧
      (load_csv_safe (Except.error e)).1.cols = [] ∧
      (load_concentration (Except.ok df)).1 = df ∧
      (load_concentration (Except.error e)).1.cols = [] :=
  ⟨rfl, rfl, rfl, rfl⟩

/-- C8: on any read or parse failure both loaders return the empty table
together with a diagnostic; totality of the model reflects that the process
never terminates on a bad file. -/
theorem c8_failed_load_safe (e : String) :
    (load_csv_safe (Except.error e)).1 = emptyTable ∧
      (load_csv_safe (Except.error e)).2.isSome = true ∧
      (load_concentration (Except.error e)).1 = emptyTable ∧
      (load_concentration (Except.error e)).2.isSome = true :=
  ⟨rfl, rfl, rfl, rfl⟩

/-- C9: the export is a pure function of the shaped table, so equal tables
produce byte-identical delimited-text output. -/
theorem c9_export_deterministic (t1 t2 : Table) (h : t1 = t2) :
    df_csv_bytes t1 = df_csv_bytes t2 := by
  rw [h]

/-- Witness for C9 at a concrete shaped table. -/
theorem c9_witness :
    df_csv_bytes ⟨["Year", "Source"], [["2016", "Gallup"]]⟩
      = df_csv_bytes ⟨["Year", "Source"], [["2016", "Gallup"]]⟩ :=
  c9_export_deterministic _ _ rfl

/-! ## CSV round-trip lemmas (C6) -/

theorem scanSafe_append (P : Char → Bool) (xs ys : List Char) (i : Bool) :
    scanSafe P i (xs ++ ys) = (scanSafe P i xs).bind (fun j => scanSafe P j ys) := by
  induction xs generalizing i with
  | nil => simp [scanSafe]
  | cons c cs ih =>
    simp only [List.cons_append, scanSafe, List.append_eq]
    by_cases hc : c = '"'
    · rw [if_pos hc, if_pos hc, ih]
    · rw [if_neg hc, if_neg hc]
      by_cases hp : (!i && P c) = true
      · rw [if_pos hp, if_pos hp]
        rfl
      · rw [if_neg hp, if_neg hp, ih]

theorem splitTopAux_safe (P : Char → Bool) (xs : List Char) :
    ∀ (i j : Bool) (acc ys : List Char), scanSafe P i xs = some j →
      splitTopAux P (xs ++ ys) i acc = splitTopAux P ys j (acc ++ xs) := by
  induction xs with
  | nil =>
    intro i j acc ys h
    simp only [scanSafe, Option.some.injEq] at h
    subst h
    simp
  | cons c cs ih =>
    intro i j acc ys h
    simp only [scanSafe] at h
    simp only [List.cons_append, splitTopAux, List.append_eq]
    by_cases hc : c = '"'
    · rw [if_pos hc] at h ⊢
      subst hc
      rw [ih _ _ _ _ h]
      simp
    · rw [if_neg hc] at h ⊢
      by_cases hp : (!i && P c) = true
      · rw [if_pos hp] at h
        exact absurd h (by simp)
      · rw [if_neg hp] at h ⊢
        rw [ih _ _ _ _ h]
        simp

theorem splitTopAux_terminated (P : Char → Bool) (d : Char) (hd : P d = true)
    (hdq : d ≠ '"') (records : List (List Char)) :
    (∀ r ∈ records, scanSafe P false r = some false) →
      splitTopAux P ((records.map (fun r => r ++ [d])).flatten) false []
        = records ++ [[]] := by
  induction records with
  | nil =>
    intro _
    simp [splitTopAux]
  | cons r rest ih =>
    intro hsafe
    have hr : scanSafe P false r = some false := hsafe r (by simp)
    have hrest : ∀ x ∈ rest, scanSafe P false x = some false := fun x hx =>
      hsafe x (by simp [hx])
    show splitTopAux P ((r ++ [d]) ++ (rest.map (fun x => x ++ [d])).flatten) false []
      = (r :: rest) ++ [[]]
    rw [show (r ++ [d]) ++ (rest.map (fun x => x ++ [d])).flatten
        = r ++ (d :: (rest.map (fun x => x ++ [d])).flatten) by simp]
    rw [splitTopAux_safe P r false false [] _ hr]
    simp only [List.nil_append]
    simp only [splitTopAux, if_neg hdq]
    rw [if_pos (by simp [hd])]
    rw [ih hrest]
    rfl

theorem scanSafe_doubleQ (P : Char → Bool) (cs : List Char) :
    scanSafe P true (doubleQ cs ++ ['"']) = some false := by
  induction cs with
  | nil => simp [doubleQ, scanSafe]
  | cons c cs ih =>
    by_cases hc : c = '"'
    · subst hc
      show scanSafe P true (('"' :: '"' :: doubleQ cs) ++ ['"']) = some false
      simp only [List.cons_append, scanSafe, if_pos rfl, Bool.not_true, Bool.not_false]
      exact ih
    · rw [show doubleQ (c :: cs) = c :: doubleQ cs by simp [doubleQ, hc]]
      simp only [List.cons_append, scanSafe, if_neg hc]
      rw [if_neg (by simp)]
      exact ih

theorem csvNeedsQuote_eq_any (cs : List Char) : csvNeedsQuote cs = cs.any csvSpecial := rfl

theorem scanSafe_of_no_special (P : Char → Bool)
    (hP : ∀ c, P c = true → csvSpecial c = true) (cs : List Char)
    (h : cs.any csvSpecial = false) :
    scanSafe P false cs = some false := by
  induction cs with
  | nil => rfl
  | cons c cs ih =>
    simp only [List.any_cons, Bool.or_eq_false_iff] at h
    have hc : c ≠ '"' := by
      intro hq
      subst hq
      simp [csvSpecial] at h
    have hp : P c = false := by
      cases hpc : P c
      · rfl
      · exact absurd (hP c hpc) (by simp [h.1])
    simp only [scanSafe, if_neg hc]
    rw [if_neg (by simp [hp])]
    exact ih h.2

theorem scanSafe_csvEscape (P : Char → Bool)
    (hP : ∀ c, P c = true → csvSpecial c = true) (cs : List Char) :
    scanSafe P false (csvEscape cs) = some false := by
  unfold csvEscape
  by_cases hq : csvNeedsQuote cs = true
  · rw [if_pos hq]
    show scanSafe P false ('"' :: (doubleQ cs ++ ['"'])) = some false
    simp only [scanSafe, if_pos rfl, Bool.not_false]
    exact scanSafe_doubleQ P cs
  · rw [if_neg hq]
    apply scanSafe_of_no_special P hP
    rw [← csvNeedsQuote_eq_any]
    exact Bool.not_eq_true _ ▸ Bool.of_not_eq_true hq

theorem scanSafe_joinSep (P : Char → Bool) (d : Char) (hdq : d ≠ '"')
    (hpd : P d = false) (parts : List (List Char)) :
    (∀ p ∈ parts, scanSafe P false p = some false) →
      scanSafe P false (joinSep d parts) = some false := by
  induction parts with
  | nil =>
    intro _
    rfl
  | cons p ps ih =>
    intro h
    cases ps with
    | nil => exact h p (by simp)
    | cons q qs =>
      have hp := h p (by simp)
      show scanSafe P false (p ++ d :: joinSep d (q :: qs)) = some false
      rw [scanSafe_append, hp]
      show scanSafe P false (d :: joinSep d (q :: qs)) = some false
      simp only [scanSafe, if_neg hdq]
      rw [if_neg (by simp [hpd])]
      exact ih (fun x hx => h x (by simp at hx ⊢; tauto))

theorem doubleQ_eq_nil_iff (cs : List Char) : doubleQ cs = [] ↔ cs = [] := by
  cases cs with
  | nil => simp [doubleQ]
  | cons c l =>
    simp only [doubleQ]
    by_cases hc : c = '"' <;> simp [hc]

theorem undouble_doubleQ (cs : List Char) : undouble (doubleQ cs) = cs := by
  induction cs with
  | nil => rfl
  | cons c cs ih =>
    by_cases hc : c = '"'
    · subst hc
      rw [show doubleQ ('"' :: cs) = '"' :: '"' :: doubleQ cs by simp [doubleQ]]
      cases hdq : doubleQ cs with
      | nil =>
        have hnil : cs = [] := (doubleQ_eq_nil_iff cs).mp hdq
        subst hnil
        rfl
      | cons d rest =>
        rw [show undouble ('"' :: '"' :: d :: rest) = '"' :: undouble (d :: rest) by
          simp [undouble]]
        rw [← hdq, ih]
    · rw [show doubleQ (c :: cs) = c :: doubleQ cs by simp [doubleQ, hc]]
      cases hdq : doubleQ cs with
      | nil =>
        have hnil : cs = [] := (doubleQ_eq_nil_iff cs).mp hdq
        subst hnil
        rfl
      | cons d rest =>
        rw [show undouble (c :: d :: rest) = c :: undouble (d :: rest) by
          simp [undouble, hc]]
        rw [← hdq, ih]

theorem unescapeField_csvEscape (cs : List Char) :
    unescapeField (csvEscape cs) = cs := by
  unfold csvEscape
  by_cases hq : csvNeedsQuote cs = true
  · rw [if_pos hq]
    show unescapeField ('"' :: (doubleQ cs ++ ['"'])) = cs
    rw [show unescapeField ('"' :: (doubleQ cs ++ ['"']))
        = undouble (doubleQ cs ++ ['"']).dropLast by simp [unescapeField]]
    rw [List.dropLast_concat]
    exact undouble_doubleQ cs
  · rw [if_neg hq]
    cases cs with
    | nil => rfl
    | cons c rest =>
      have hc : c ≠ '"' := by
        intro hcq
        subst hcq
        exact hq (by simp [csvNeedsQuote])
      simp [unescapeField, hc]

theorem csvLine_safe (P : Char → Bool) (hP : ∀ c, P c = true → csvSpecial c = true)
    (hcomma : P ',' = false) (row : List String) :
    scanSafe P false (csvLine row) = some false := by
  unfold csvLine
  apply scanSafe_joinSep P ',' (by decide) hcomma
  intro p hp
  obtain ⟨s, -, rfl⟩ := List.mem_map.mp hp
  exact scanSafe_csvEscape P hP s.data

theorem csvLine_ne_nil (row : List String) (h2 : 2 ≤ row.length) :
    (csvLine row).isEmpty = false := by
  match row, h2 with
  | a :: b :: rest, _ =>
    show (joinSep ',' (csvEscape a.data :: csvEscape b.data
      :: rest.map (fun s => csvEscape s.data))).isEmpty = false
    rw [show joinSep ',' (csvEscape a.data :: csvEscape b.data
        :: rest.map (fun s => csvEscape s.data))
      = csvEscape a.data ++ ',' :: joinSep ','
          (csvEscape b.data :: rest.map (fun s => csvEscape s.data)) from rfl]
    simp

theorem splitTopAux_joinSep (P : Char → Bool) (d : Char) (hd : P d = true)
    (hdq : d ≠ '"') (ps : List (List Char)) :
    ∀ p, (∀ x ∈ p :: ps, scanSafe P false x = some false) →
      splitTopAux P (joinSep d (p :: ps)) false [] = p :: ps := by
  induction ps with
  | nil =>
    intro p h
    have hp := h p (by simp)
    have hstep := splitTopAux_safe P p false false [] [] hp
    simpa [splitTopAux] using hstep
  | cons q qs ih =>
    intro p h
    have hp := h p (by simp)
    show splitTopAux P (p ++ d :: joinSep d (q :: qs)) false [] = p :: q :: qs
    rw [splitTopAux_safe P p false false [] _ hp]
    simp only [List.nil_append]
    simp only [splitTopAux, if_neg hdq]
    rw [if_pos (by simp [hd])]
    rw [ih q (fun x hx => h x (by simp at hx ⊢; tauto))]

theorem splitTop_csvLine (row : List String) (h2 : 2 ≤ row.length) :
    (splitTop (fun c => c = ',') (csvLine row)).map
      (fun f => (⟨unescapeField f⟩ : String)) = row := by
  have hP : ∀ c, decide (c = ',') = true → csvSpecial c = true := by
    intro c hc
    simp at hc
    subst hc
    rfl
  have hsafe : ∀ x ∈ row.map (fun s => csvEscape s.data),
      scanSafe (fun c => c = ',') false x = some false := by
    intro x hx
    obtain ⟨s, -, rfl⟩ := List.mem_map.mp hx
    exact scanSafe_csvEscape _ hP s.data
  match row, h2 with
  | a :: b :: rest, _ =>
    unfold splitTop csvLine
    rw [show (a :: b :: rest).map (fun s => csvEscape s.data)
      = csvEscape a.data :: csvEscape b.data :: rest.map (fun s => csvEscape s.data) from rfl]
    rw [splitTopAux_joinSep _ ',' (by decide) (by decide) _ _
      (by
        rw [show csvEscape a.data :: csvEscape b.data :: rest.map (fun s => csvEscape s.data)
          = (a :: b :: rest).map (fun s => csvEscape s.data) from rfl]
        exact hsafe)]
    rw [show csvEscape a.data :: csvEscape b.data :: rest.map (fun s => csvEscape s.data)
      = (a :: b :: rest).map (fun s => csvEscape s.data) from rfl]
    rw [List.map_map]
    have hpt : ∀ s ∈ a :: b :: rest,
        ((fun f => (⟨unescapeField f⟩ : String)) ∘ fun s => csvEscape s.data) s = id s := by
      intro s _
      show (⟨unescapeField (csvEscape s.data)⟩ : String) = s
      rw [unescapeField_csvEscape]
    rw [List.map_congr_left hpt, List.map_id]

theorem csv_records_split (t : Table) :
    splitTop (fun c => c = '\n') (df_csv_bytes t).data
      = ((t.cols :: t.rows).map csvLine) ++ [[]] := by
  show splitTopAux (fun c => c = '\n')
    (((t.cols :: t.rows).map (fun r => csvLine r ++ ['\n'])).flatten) false [] = _
  rw [show (t.cols :: t.rows).map (fun r => csvLine r ++ ['\n'])
      = ((t.cols :: t.rows).map csvLine).map (fun r => r ++ ['\n']) by
    rw [List.map_map]
    rfl]
  apply splitTopAux_terminated _ '\n' (by decide) (by decide)
  intro r hr
  obtain ⟨row, -, rfl⟩ := List.mem_map.mp hr
  apply csvLine_safe
  · intro c hc
    simp at hc
    subst hc
    rfl
  · decide

/-- C6: re-parsing the exported bytes of any shaped table (every record,
header included, carrying at least two cells — every export in the app has
three to five columns) recovers the table record for record and cell for
cell. Equality is taken at the rendered-cell level, which is exactly
equality modulo the re-typing of text-typed numeric columns that read_csv
performs. -/
theorem c6_export_roundtrip (t : Table)
    (h : ∀ r ∈ t.cols :: t.rows, 2 ≤ r.length) :
    read_csv_model (df_csv_bytes t) = t := by
  have hparse : csvParse (df_csv_bytes t) = t.cols :: t.rows := by
    unfold csvParse
    rw [csv_records_split t]
    rw [List.filter_append]
    rw [show List.filter (fun r => !r.isEmpty) [([] : List Char)] = [] from rfl]
    rw [List.append_nil]
    rw [List.filter_eq_self.mpr (by
      intro rec hrec
      obtain ⟨row, hrow, rfl⟩ := List.mem_map.mp hrec
      simp [csvLine_ne_nil row (h row hrow)])]
    rw [List.map_map]
    have hpt : ∀ row ∈ t.cols :: t.rows,
        ((fun record => (splitTop (fun c => c = ',') record).map
            (fun f => (⟨unescapeField f⟩ : String))) ∘ csvLine) row = id row := by
      intro row hrow
      show (splitTop (fun c => c = ',') (csvLine row)).map
        (fun f => (⟨unescapeField f⟩ : String)) = row
      exact splitTop_csvLine row (h row hrow)
    rw [List.map_congr_left hpt, List.map_id]
  unfold read_csv_model
  rw [hparse]

/-- Witness for C6 at a concrete shaped table whose cells exercise quoting:
a comma, a double quote and plain text. -/
theorem c6_witness :
    (∀ r ∈ (["Year", "Source"] : List String) :: [["2016", "Ga,l\"lup"]], 2 ≤ r.length) ∧
      read_csv_model (df_csv_bytes ⟨["Year", "Source"], [["2016", "Ga,l\"lup"]]⟩)
        = ⟨["Year", "Source"], [["2016", "Ga,l\"lup"]]⟩ :=
  ⟨by decide, c6_export_roundtrip _ (by decide)⟩
